import Mathlib

/-!
Verification development for the action-resolution core of the trpg_Agent
repository (src/Agent/implementations/execution_engine.py,
fillable_state_managers.py, src/Agent/data/character_data.py, map_data.py,
src/Agent/interfaces/data_structures.py, state_management_interfaces.py).

The Python code is shallowly embedded: each class's mutable state becomes a
Lean structure, each method a function threading that state explicitly.
Python dicts keyed by strings become association lists (insertion order,
assignment replaces in place); `random.randint` results become explicit
parameters; an exception escaping a method is an explicit `exn` outcome.
-/

namespace Trpg

/-! ## Case-insensitive substring matching

Python code throughout uses `needle.lower() in hay.lower()`.  We embed it
over the character lists of the two strings. -/

/-- All characters of a string, lowercased (Python str.lower; Char.toLower
agrees on ASCII and leaves CJK characters unchanged, as Python does). -/
def lowerChars (s : String) : List Char :=
  s.data.map Char.toLower

/-- Does the first character list occur at the head of the second? -/
def chPre : List Char → List Char → Bool
  | [], _ => true
  | _ :: _, [] => false
  | a :: as, b :: bs => a = b && chPre as bs

/-- Does the first character list occur contiguously inside the second? -/
def chIn (needle : List Char) : List Char → Bool
  | [] => needle.isEmpty
  | h :: t => chPre needle (h :: t) || chIn needle t

/-- Python `needle.lower() in hay.lower()`. -/
def containsCI (hay needle : String) : Bool :=
  chIn (lowerChars needle) (lowerChars hay)

/-! ## Core data structures (interfaces/data_structures.py)

`Intent.type`, `parameters` and `confidence` are never read by the
execution engine and are omitted.  `StateChange.value`/`old_value` are
typed `Any` in Python; every change the engine constructs carries an int
(an hp value), so they are embedded as `Int`. -/

/-- Intent (data_structures.Intent): the fields the engine reads. -/
structure Intent where
  category : String
  action : String
  target : String
deriving DecidableEq, Repr

/-- StateChange (data_structures.StateChange). -/
structure StateChange where
  target : String
  action : String
  property : String
  value : Int
  oldValue : Int
deriving DecidableEq, Repr

/-- DiceRoll (data_structures.DiceRoll); `total` is derived, never stored. -/
structure DiceRoll where
  name : String
  diceType : String
  result : Int
  modifier : Int
deriving DecidableEq, Repr

/-- DiceRoll.total, computed in __post_init__ as result + modifier. -/
def DiceRoll.total (d : DiceRoll) : Int :=
  d.result + d.modifier

/-- ExecutionResult (data_structures.ExecutionResult).  The dataclass has
fields success, action_taken, state_changes, dice_results, world_changes,
new_concepts, failure_reason, additional_info — and, notably, NO
`metadata` field.  world_changes/new_concepts/additional_info are never
read by the engine and are omitted here. -/
structure ExecutionResult where
  success : Bool
  actionTaken : String
  stateChanges : List StateChange
  diceResults : List DiceRoll
  failureReason : String
deriving DecidableEq, Repr

/-! ## World state (implementations/game_state.py), restricted to the
fields the execution engine reads and writes: the player's hp and each
NPC's name/type/hp/alive.  RealWorldState keeps npcs in a dict keyed by
`npc.name`; the transaction and the actions iterate its values, which we
embed as a list in insertion order. -/

/-- NPC (game_state.RealNPC), fields used by the engine. -/
structure NPC where
  name : String
  typ : String
  hp : Int
  maxHp : Int
  alive : Bool
deriving DecidableEq, Repr

/-- Player state (game_state.RealPlayerState), fields used by the engine. -/
structure Player where
  hp : Int
  maxHp : Int
  mp : Int
  maxMp : Int
  location : String
  inventoryCount : Nat
  level : Int
  gold : Int
deriving DecidableEq, Repr

/-- The game state seen by the engine: player_state plus world.npcs. -/
structure World where
  player : Player
  npcs : List NPC
deriving DecidableEq, Repr

/-! ## RealStateTransaction (execution_engine.py)

__enter__ snapshots `player_state.hp` and a dict {npc.name: npc.hp}
(later duplicates overwrite earlier ones).  add_change applies a change
immediately: a ("player","hp") change writes the player's hp, any other
change writes `npc.hp` for every NPC whose name equals the target when the
property is "hp".  rollback restores the player hp and every NPC whose
name is a snapshot key.  __exit__ rolls back exactly when an exception is
propagating and commit() was not called. -/

/-- The transaction's `_original_state` restore point. -/
structure Snapshot where
  playerHp : Int
  npcHps : List (String × Int)
deriving DecidableEq, Repr

/-- Snapshot taken in RealStateTransaction.__enter__. -/
def mkSnapshot (w : World) : Snapshot :=
  { playerHp := w.player.hp, npcHps := w.npcs.map fun n => (n.name, n.hp) }

/-- Lookup in the snapshot's npc dict: the comprehension
{npc.name: npc.hp for npc in npcs} keeps the LAST binding of a name. -/
def snapFind (l : List (String × Int)) (nm : String) : Option Int :=
  l.foldl (fun acc p => if p.1 = nm then some p.2 else acc) none

/-- Immediate application done by RealStateTransaction.add_change. -/
def applyChange (w : World) (c : StateChange) : World :=
  if c.target = "player" ∧ c.property = "hp" then
    { w with player := { w.player with hp := c.value } }
  else
    { w with npcs := w.npcs.map fun n =>
        if n.name = c.target ∧ c.property = "hp" then { n with hp := c.value } else n }

/-- The world after a sequence of add_change calls. -/
def applyChanges (w : World) (cs : List StateChange) : World :=
  cs.foldl applyChange w

/-- RealStateTransaction.rollback against a snapshot. -/
def rollback (s : Snapshot) (w : World) : World :=
  { w with
    player := { w.player with hp := s.playerHp },
    npcs := w.npcs.map fun n =>
      match snapFind s.npcHps n.name with
      | some h => { n with hp := h }
      | none => n }

/-! ## Game functions and the engine (execution_engine.py)

A Python GameFunction's `execute(intent, game_state, transaction)` is
deterministic in (intent, initial world) once its dice are fixed, because
the only state it touches is the world and the only mutation path is
`transaction.add_change` (whose effect is `applyChange`).  We therefore
embed it extensionally: `run intent world` yields the ordered list of
StateChanges it passes to add_change together with its outcome — a
returned ExecutionResult or an escaping exception. -/

/-- Outcome of a Python call: a return value or a raised exception. -/
inductive PyOutcome where
  | ok (r : ExecutionResult)
  | exn (msg : String)
deriving DecidableEq, Repr

/-- A registered game function (interfaces GameFunction implementation):
its name, the category in its metadata, can_execute, and the extensional
behaviour of execute. -/
structure GameFunction where
  name : String
  category : String
  canExecute : Intent → World → Bool
  run : Intent → World → List StateChange × PyOutcome

/-- The eight category tags recognised by
RealFunctionRegistry.find_functions_by_intent. -/
def knownCategories : List String :=
  ["攻击", "搜索", "对话", "交易", "移动", "状态查询", "交互", "技能"]

/-- find_functions_by_intent routes a known category to itself and
anything else to the "其他" bucket. -/
def categoryKey (c : String) : String :=
  if c ∈ knownCategories then c else "其他"

/-- RealFunctionRegistry.get_functions_by_category: the functions whose
registered category matches, in registration order.  (The registry indexes
names per category and resolves them through a name-keyed dict; for
distinct function names, as in the default engine, this is the filter of
the registration list.) -/
def functionsByCategory (fns : List GameFunction) (cat : String) : List GameFunction :=
  fns.filter fun f => f.category = cat

/-- RealFunctionRegistry.find_functions_by_intent. -/
def findFunctionsByIntent (fns : List GameFunction) (i : Intent) : List GameFunction :=
  functionsByCategory fns (categoryKey i.category)

/-- A failed ExecutionResult as built throughout execution_engine.py. -/
def failResult (act reason : String) : ExecutionResult :=
  { success := false, actionTaken := act, stateChanges := [], diceResults := [],
    failureReason := reason }

/-- What one RealExecutionEngine.process call returns: the final world,
the ExecutionResult, and the name recorded in the execution-history entry
this call appended (`none` when no entry was appended). -/
structure ProcessReturn where
  world : World
  result : ExecutionResult
  historyEntry : Option String
deriving Repr

/-- RealExecutionEngine.process.  Finds the category's functions; with
none, fails (the source wraps the category in ASCII quotes inside the
message).  Otherwise it takes functions[0] only, checks ITS can_execute,
and runs it inside a RealStateTransaction: changes apply immediately; on a
raised exception __exit__ rolls back and the except-branch builds a
failure result (no history entry is appended); on a normal return a
successful result's state_changes are overwritten with the committed list,
and a history entry is appended naming the function. -/
def process (fns : List GameFunction) (i : Intent) (w : World) : ProcessReturn :=
  match findFunctionsByIntent fns i with
  | [] =>
      { world := w,
        result := failResult "尝试执行动作" ("暂不支持" ++ i.category ++ "类型的动作"),
        historyEntry := none }
  | f :: _ =>
      if f.canExecute i w then
        let snap := mkSnapshot w
        let out := f.run i w
        let w1 := applyChanges w out.1
        match out.2 with
        | .exn m =>
            { world := rollback snap w1,
              result := failResult "尝试执行动作" ("执行过程中出现错误：" ++ m),
              historyEntry := none }
        | .ok r =>
            { world := w1,
              result := if r.success then { r with stateChanges := out.1 } else r,
              historyEntry := some f.name }
      else
        { world := w,
          result := failResult "尝试执行动作" ("当前条件下无法执行" ++ i.category ++ "动作"),
          historyEntry := none }

/-! ## The built-in functions (execution_engine.py)

Dice throws (`random.randint`) are parameters of the embedded function
objects.  IMPORTANT: data_structures.ExecutionResult has no `metadata`
field, yet the success branches of Search/Dialogue/Trade/Status/Movement/
Interaction/Skill pass `metadata=...` to its constructor; in Python that
raises TypeError out of execute, which `process` catches (rolling the
transaction back).  Those branches are embedded as `.exn` outcomes. -/

/-- The TypeError raised by passing `metadata=` to the ExecutionResult
dataclass constructor, which has no such field. -/
def metadataTypeError : String :=
  "TypeError: unexpected keyword argument metadata"

/-- First NPC whose lowercased name contains the lowercased target
(the loop shared by attack/dialogue execute). -/
def findNpcByName (npcs : List NPC) (target : String) : Option NPC :=
  npcs.find? fun n => containsCI n.name target

/-- AttackFunction, with its 1d6 damage die forced to `roll`. -/
def attackFunction (roll : Int) : GameFunction where
  name := "attack"
  category := "攻击"
  canExecute := fun i w =>
    i.category = "攻击" && i.target ≠ "" &&
      w.npcs.any fun n => containsCI n.name i.target
  run := fun i w =>
    match findNpcByName w.npcs i.target with
    | none =>
        ([], .ok (failResult ("尝试攻击" ++ i.target) ("找不到目标：" ++ i.target)))
    | some npc =>
        if npc.hp ≤ 0 then
          ([], .ok (failResult ("尝试攻击" ++ npc.name) (npc.name ++ "已经被击败了")))
        else
          let damageRoll : DiceRoll := { name := "伤害骰", diceType := "1d6", result := roll, modifier := 2 }
          let totalDamage := damageRoll.result + damageRoll.modifier
          let newHp := max 0 (npc.hp - totalDamage)
          let hpChange : StateChange :=
            { target := npc.name, action := "modify", property := "hp",
              value := newHp, oldValue := npc.hp }
          let desc :=
            if newHp ≤ 0 then "攻击" ++ npc.name ++ "造成" ++ toString totalDamage ++ "点伤害，将其击败"
            else "攻击" ++ npc.name ++ "造成" ++ toString totalDamage ++ "点伤害"
          ([hpChange],
           .ok { success := true, actionTaken := desc, stateChanges := [hpChange],
                 diceResults := [damageRoll], failureReason := "" })

/-- SearchFunction, with its 1d20 check forced to `roll`.  Its success
branch passes `metadata=` and raises. -/
def searchFunction (roll : Int) : GameFunction where
  name := "search"
  category := "搜索"
  canExecute := fun i _ => i.category = "搜索"
  run := fun i _ =>
    let target := if i.target = "" then "周围环境" else i.target
    let searchRoll : DiceRoll := { name := "搜索检定", diceType := "1d20", result := roll, modifier := 0 }
    if searchRoll.result ≥ 10 then ([], .exn metadataTypeError)
    else
      ([], .ok { success := false, actionTaken := "搜索" ++ target ++ "失败",
                 stateChanges := [], diceResults := [searchRoll],
                 failureReason := "你仔细搜索了" ++ target ++ "，但没有发现任何有价值的东西" })

/-- DialogueFunction.  Its success branch passes `metadata=` and raises. -/
def dialogueFunction : GameFunction where
  name := "dialogue"
  category := "对话"
  canExecute := fun i w =>
    i.category = "对话" && i.target ≠ "" &&
      w.npcs.any fun n => containsCI n.name i.target
  run := fun i w =>
    match findNpcByName w.npcs i.target with
    | none =>
        ([], .ok (failResult ("尝试与" ++ i.target ++ "对话") ("找不到" ++ i.target)))
    | some npc =>
        if ¬ npc.alive then
          ([], .ok (failResult ("尝试与" ++ npc.name ++ "对话") (npc.name ++ "已经无法回应了")))
        else ([], .exn metadataTypeError)

/-- TradeFunction.  Its success branch passes `metadata=` and raises. -/
def tradeFunction : GameFunction where
  name := "trade"
  category := "交易"
  canExecute := fun i w =>
    i.category = "交易" && i.target ≠ "" &&
      w.npcs.any fun n =>
        containsCI n.name i.target && (n.typ = "友好" || n.typ = "商人" || n.typ = "merchant")
  run := fun i w =>
    match w.npcs.find? (fun n =>
        containsCI n.name i.target && (n.typ = "友好" || n.typ = "商人" || n.typ = "merchant")) with
    | none =>
        ([], .ok (failResult ("尝试与" ++ i.target ++ "交易") ("找不到可交易的商人" ++ i.target)))
    | some _ => ([], .exn metadataTypeError)

/-- StatusFunction.  It only reads the player, then passes `metadata=`
(and additional_info) to ExecutionResult and raises. -/
def statusFunction : GameFunction where
  name := "status"
  category := "状态查询"
  canExecute := fun i _ => i.category = "状态查询"
  run := fun _ _ => ([], .exn metadataTypeError)

/-- MovementFunction.  Its success branch passes `metadata=` and raises. -/
def movementFunction : GameFunction where
  name := "movement"
  category := "移动"
  canExecute := fun i _ => i.category = "移动"
  run := fun i _ =>
    if i.target = "未指定" ∨ i.target = "" then
      ([], .ok (failResult "尝试移动" "需要指定移动目标或方向"))
    else ([], .exn metadataTypeError)

/-- InteractionFunction, with its 1d20 check forced to `roll`.  Its
success branch passes `metadata=` and raises. -/
def interactionFunction (roll : Int) : GameFunction where
  name := "interaction"
  category := "交互"
  canExecute := fun i _ => i.category = "交互"
  run := fun i _ =>
    let target := if i.target = "" then "周围物体" else i.target
    let interactionRoll : DiceRoll := { name := "交互检定", diceType := "1d20", result := roll, modifier := 0 }
    if interactionRoll.result ≥ 12 then ([], .exn metadataTypeError)
    else
      ([], .ok { success := false, actionTaken := "尝试与" ++ target ++ "交互",
                 stateChanges := [], diceResults := [interactionRoll],
                 failureReason := "交互失败，" ++ target ++ "没有反应" })

/-- SkillFunction, with its 1d20 check forced to `roll` and the 1d8 heal
die to `healRoll`.  On a passing check a healing skill first proposes an
hp-add through the transaction; the subsequent success ExecutionResult
passes `metadata=` and raises, so the outcome is `.exn` after the change
was added. -/
def skillFunction (roll healRoll : Int) : GameFunction where
  name := "skill"
  category := "技能"
  canExecute := fun i _ => i.category = "技能"
  run := fun i w =>
    let skillRoll : DiceRoll := { name := "技能检定", diceType := "1d20", result := roll, modifier := 2 }
    if skillRoll.result ≥ 10 then
      let isHeal := containsCI i.action "治疗" || containsCI i.action "恢复" || containsCI i.action "医疗"
      let changes :=
        if isHeal then
          let healAmount := healRoll + 2
          let newHp := min w.player.maxHp (w.player.hp + healAmount)
          if newHp > w.player.hp then
            [({ target := "player", action := "modify", property := "hp",
                value := newHp, oldValue := w.player.hp } : StateChange)]
          else []
        else []
      (changes, .exn metadataTypeError)
    else
      ([], .ok { success := false, actionTaken := "尝试施放" ++ i.action,
                 stateChanges := [], diceResults := [skillRoll],
                 failureReason := "技能施放失败" })

/-- The engine's dice for one process call. -/
structure Dice where
  attackDamage : Int
  searchCheck : Int
  interactCheck : Int
  skillCheck : Int
  healAmount : Int

/-- RealExecutionEngine._register_default_functions, in registration
order. -/
def defaultFunctions (d : Dice) : List GameFunction :=
  [attackFunction d.attackDamage, searchFunction d.searchCheck, dialogueFunction,
   tradeFunction, statusFunction, movementFunction,
   interactionFunction d.interactCheck, skillFunction d.skillCheck d.healAmount]

/-! ## Python values and dict helpers

The state managers (fillable_state_managers.py) store heterogeneous
Python values in dicts.  `PyVal` covers the value shapes those managers
actually handle; an association list in insertion order embeds a dict
(assignment replaces the existing binding in place, else appends). -/

/-- A Python value as stored by the fillable state managers.  `pDict it q`
stands for the inventory dict {"item": it, "quantity": q}. -/
inductive PyVal where
  | pInt (i : Int)
  | pBool (b : Bool)
  | pStr (s : String)
  | pStrList (l : List String)
  | pDict (item : String) (quantity : Int)
deriving DecidableEq, Repr

/-- Python truthiness of a stored value. -/
def pyTruthy : PyVal → Bool
  | .pInt i => i ≠ 0
  | .pBool b => b
  | .pStr s => s ≠ ""
  | .pStrList l => ¬ l.isEmpty
  | .pDict _ _ => true

/-- dict lookup (first binding; `aSet` keeps keys unique). -/
def aGet {α : Type} (d : List (String × α)) (k : String) : Option α :=
  (d.find? fun p => p.1 = k).map Prod.snd

/-- dict assignment: replace the existing binding in place, else append. -/
def aSet {α : Type} (d : List (String × α)) (k : String) (v : α) : List (String × α) :=
  match d with
  | [] => [(k, v)]
  | p :: t => if p.1 = k then (k, v) :: t else p :: aSet t k v

/-- Python `+` on the stored value shapes (bools coerce to ints); `none`
is a TypeError. -/
def pyAdd : PyVal → PyVal → Option PyVal
  | .pInt a, .pInt b => some (.pInt (a + b))
  | .pInt a, .pBool b => some (.pInt (a + if b then 1 else 0))
  | .pBool a, .pInt b => some (.pInt ((if a then 1 else 0) + b))
  | .pBool a, .pBool b => some (.pInt ((if a then 1 else 0) + if b then 1 else 0))
  | .pStr a, .pStr b => some (.pStr (a ++ b))
  | .pStrList a, .pStrList b => some (.pStrList (a ++ b))
  | _, _ => none

/-- Python `-` on the stored value shapes; `none` is a TypeError. -/
def pySub : PyVal → PyVal → Option PyVal
  | .pInt a, .pInt b => some (.pInt (a - b))
  | .pInt a, .pBool b => some (.pInt (a - if b then 1 else 0))
  | .pBool a, .pInt b => some (.pInt ((if a then 1 else 0) - b))
  | .pBool a, .pBool b => some (.pInt ((if a then 1 else 0) - if b then 1 else 0))
  | _, _ => none

/-- Python str() of a stored value, used by the player manager's location
branch.  (List rendering is abbreviated; no claim depends on it.) -/
def pyToString : PyVal → String
  | .pInt i => toString i
  | .pBool true => "True"
  | .pBool false => "False"
  | .pStr s => s
  | .pStrList _ => "[...]"
  | .pDict it q => "[" ++ it ++ ", " ++ toString q ++ "]"

/-! ## State operations (interfaces/state_management_interfaces.py) -/

/-- StateOperationType. -/
inductive OpType where
  | opSet
  | opAdd
  | opSubtract
  | opMultiply
  | opAppend
  | opRemove
deriving DecidableEq, Repr

/-- StateOperationRequest (`condition` is never read and is omitted). -/
structure StateOperationRequest where
  target : String
  propertyPath : String
  operation : OpType
  value : PyVal
  reason : String
deriving DecidableEq, Repr

/-- StateValidationResult (`required_resources` is never read and is
omitted); `side_effects` defaults to None. -/
structure StateValidationResult where
  valid : Bool
  reason : String
  sideEffects : Option (List StateOperationRequest)
deriving DecidableEq, Repr

/-! ## Character attributes (data/character_data.py)

CharacterAttributes keeps a fixed table of AttributeDefinitions (written
once by _init_default_attributes) and a dict of current int values.  The
definition table is embedded as the constant `attributeDefinitions`; a
`Character` is the mutable value dict.  Derived attributes are computed on
read from the stored primary values; their formula strings are embedded as
the arithmetic they evaluate to (int() truncates toward zero, as does
`Int.div`). -/

/-- AttributeType. -/
inductive AttrType where
  | primary
  | derived
  | resource
  | skill
  | social
deriving DecidableEq, Repr

/-- AttributeDefinition: the fields read by get/set (display name and
description omitted); `hasCalc` records whether a calculation formula is
attached. -/
structure AttrDef where
  attrType : AttrType
  baseValue : Int
  minValue : Int
  maxValue : Option Int
  hasCalc : Bool
deriving DecidableEq, Repr

/-- The 17 definitions installed by _init_default_attributes, in order. -/
def attributeDefinitions : List (String × AttrDef) :=
  [("strength", ⟨.primary, 10, 1, some 20, false⟩),
   ("dexterity", ⟨.primary, 10, 1, some 20, false⟩),
   ("intelligence", ⟨.primary, 10, 1, some 20, false⟩),
   ("constitution", ⟨.primary, 10, 1, some 20, false⟩),
   ("max_hp", ⟨.derived, 0, 1, none, true⟩),
   ("max_mp", ⟨.derived, 0, 0, none, true⟩),
   ("attack_power", ⟨.derived, 0, 1, none, true⟩),
   ("magic_power", ⟨.derived, 0, 0, none, true⟩),
   ("current_hp", ⟨.resource, 0, 0, none, false⟩),
   ("current_mp", ⟨.resource, 0, 0, none, false⟩),
   ("stamina", ⟨.resource, 100, 0, some 100, false⟩),
   ("sword_skill", ⟨.skill, 0, 0, some 100, false⟩),
   ("magic_skill", ⟨.skill, 0, 0, some 100, false⟩),
   ("lockpick_skill", ⟨.skill, 0, 0, some 100, false⟩),
   ("reputation", ⟨.social, 0, -100, some 100, false⟩),
   ("charisma", ⟨.social, 10, 1, some 20, false⟩),
   ("level", ⟨.primary, 1, 1, some 99, false⟩),
   ("experience", ⟨.resource, 0, 0, none, false⟩)]

/-- The `current_values` dict of one CharacterAttributes instance. -/
structure Character where
  values : List (String × Int)
deriving DecidableEq, Repr

/-- current_values after __init__ (define_attribute stores each base
value, unclamped). -/
def initialCharacterValues : List (String × Int) :=
  attributeDefinitions.map fun p => (p.1, p.2.baseValue)

/-- The stored value of an attribute, `current_values.get(key, 0)` as used
when evaluating a derived formula. -/
def rawValue (c : Character) (k : String) : Int :=
  (aGet c.values k).getD 0

/-- CharacterAttributes._calculate_derived_value: the four formulas installed by
_init_default_attributes, evaluated over the stored values
(int(x * 1.5) truncates toward zero = Int.tdiv (3 * x) 2). -/
def calcDerived (c : Character) (k : String) : Int :=
  if k = "max_hp" then rawValue c "constitution" * 10 + rawValue c "level" * 5
  else if k = "max_mp" then rawValue c "intelligence" * 8 + rawValue c "level" * 3
  else if k = "attack_power" then rawValue c "strength" * 2
  else if k = "magic_power" then Int.tdiv (3 * rawValue c "intelligence") 2
  else rawValue c k

/-- CharacterAttributes.get_attribute. -/
def getAttribute (c : Character) (k : String) : Int :=
  match aGet c.values k with
  | none => 0
  | some v =>
    match aGet attributeDefinitions k with
    | some d => if d.attrType = .derived ∧ d.hasCalc then calcDerived c k else v
    | none => v

/-- Clamp a value into a definition's [min_value, max_value] range, as
done by set_attribute. -/
def clampTo (d : AttrDef) (v : Int) : Int :=
  let v1 := if v < d.minValue then d.minValue else v
  match d.maxValue with
  | some m => if v1 > m then m else v1
  | none => v1

/-- CharacterAttributes.set_attribute (a no-op on undefined keys). -/
def setAttribute (c : Character) (k : String) (v : Int) : Character :=
  match aGet attributeDefinitions k with
  | none => c
  | some d => { values := aSet c.values k (clampTo d v) }

/-- CharacterAttributes.modify_attribute. -/
def modifyAttribute (c : Character) (k : String) (delta : Int) : Character :=
  setAttribute c k (getAttribute c k + delta)

/-- create_character("战士"): template values written through
set_attribute, then current_hp/current_mp initialised from the derived
maxima. -/
def createWarrior : Character :=
  let c : Character := { values := initialCharacterValues }
  let c := setAttribute c "strength" 15
  let c := setAttribute c "dexterity" 12
  let c := setAttribute c "intelligence" 8
  let c := setAttribute c "constitution" 14
  let c := setAttribute c "sword_skill" 20
  let c := setAttribute c "current_hp" (getAttribute c "max_hp")
  setAttribute c "current_mp" (getAttribute c "max_mp")

/-! ## Player inventory (data/consumables_data.py)

PlayerInventory: a fixed number of slots, each empty or holding
(item_id, quantity); the consumable registry is embedded as the map from
item id to max_stack, the only registry data add_item reads. -/

/-- One PlayerInventory. -/
structure Inventory where
  maxSlots : Nat
  slots : List (Option (String × Int))
  registryMaxStack : List (String × Int)
deriving DecidableEq, Repr

/-- Occupied slot count, `len([s for s in slots if s is not None])`. -/
def usedSlots (inv : Inventory) : Nat :=
  (inv.slots.filter Option.isSome).length

/-- PlayerInventory.get_item_count. -/
def getItemCount (inv : Inventory) (it : String) : Int :=
  inv.slots.foldl
    (fun acc s =>
      match s with
      | some (id, q) => if id = it then acc + q else acc
      | none => acc) 0

/-- The stacking pass of add_item: walk the slots in order, topping up
slots of the same item below max_stack while quantity remains. -/
def stackPass (maxStack : Int) (it : String) :
    List (Option (String × Int)) → Int → List (Option (String × Int)) × Int
  | [], rem => ([], rem)
  | none :: t, rem =>
    let r := stackPass maxStack it t rem
    (none :: r.1, r.2)
  | some (id, q) :: t, rem =>
    if id = it ∧ q < maxStack ∧ rem > 0 then
      let canAdd := min rem (maxStack - q)
      let r := stackPass maxStack it t (rem - canAdd)
      (some (id, q + canAdd) :: r.1, r.2)
    else
      let r := stackPass maxStack it t rem
      (some (id, q) :: r.1, r.2)

/-- Replace the first empty slot, if any. -/
def putFirstEmpty (v : String × Int) :
    List (Option (String × Int)) → Option (List (Option (String × Int)))
  | [] => none
  | none :: t => some (some v :: t)
  | s :: t => (putFirstEmpty v t).map (s :: ·)

/-- The while-loop of add_item: fill empty slots with chunks of at most
max_stack.  Each round consumes one empty slot, so fuel = slot count + 1
reproduces the loop exactly. -/
def fillEmpty (maxStack : Int) (it : String) :
    Nat → List (Option (String × Int)) → Int → List (Option (String × Int)) × Bool
  | 0, slots, _ => (slots, false)
  | fuel + 1, slots, rem =>
    if rem ≤ 0 then (slots, true)
    else
      let take := min rem maxStack
      match putFirstEmpty (it, take) slots with
      | none => (slots, false)
      | some slots' => fillEmpty maxStack it fuel slots' (rem - take)

/-- PlayerInventory.add_item (returns the updated inventory and the
success flag; with an unknown item or a full bag the slots written so far
remain, exactly as in the source). -/
def addItem (inv : Inventory) (it : String) (q : Int) : Inventory × Bool :=
  match aGet inv.registryMaxStack it with
  | none => (inv, false)
  | some maxStack =>
    let s := stackPass maxStack it inv.slots q
    let f := fillEmpty maxStack it (inv.slots.length + 1) s.1 s.2
    ({ inv with slots := f.1 }, f.2)

/-- PlayerInventory.remove_item: drain matching slots in order; a slot
emptied to ≤ 0 becomes None. -/
def removeSlots (it : String) :
    List (Option (String × Int)) → Int → List (Option (String × Int)) × Int
  | [], rem => ([], rem)
  | none :: t, rem =>
    let r := removeSlots it t rem
    (none :: r.1, r.2)
  | some (id, q) :: t, rem =>
    if id = it ∧ rem > 0 then
      let take := min rem q
      let q' := q - take
      let slot := if q' ≤ 0 then none else some (id, q')
      let r := removeSlots it t (rem - take)
      (slot :: r.1, r.2)
    else
      let r := removeSlots it t rem
      (some (id, q) :: r.1, r.2)

/-- PlayerInventory.remove_item. -/
def removeItem (inv : Inventory) (it : String) (q : Int) : Inventory × Bool :=
  let r := removeSlots it inv.slots q
  ({ inv with slots := r.1 }, r.2 = 0)

/-! ## FillablePlayerStateManager (fillable_state_managers.py)

Its mutable state: the character's value dict, the current location and
the inventory (quest_progress/status_effects are never touched by the
embedded methods and are omitted).  Where a Python method can raise (int
arithmetic on a non-int request value) the embedding returns an
`Except String` error.  apply_operation mutates and then ALWAYS raises
while constructing its return value: both its normal and its except
branch pass keyword arguments (property_name=, new_value=, change_reason=)
that the StateChange dataclass does not accept.  The mutation precedes the
raise, so the state effect below is exactly the source's; the returned
StateChange object is not modeled. -/

/-- One FillablePlayerStateManager. -/
structure PlayerMgr where
  character : Character
  currentLocation : String
  inventory : Inventory
deriving DecidableEq, Repr

/-- FillablePlayerStateManager.supports_target. -/
def supportsTargetPlayer (t : String) : Bool :=
  t.toLower = "player" || t.toLower = "玩家" || t.toLower = "自己"

/-- The characters before the first '.', computed structurally. -/
def baseChars : List Char → List Char
  | [] => []
  | c :: t => if c = '.' then [] else c :: baseChars t

/-- request.property_path.split('.')[0]. -/
def basePropertyOf (p : String) : String :=
  String.mk (baseChars p.data)

/-- FillablePlayerStateManager.can_perform_operation.  An `.error` stands
for a TypeError escaping the method (int comparison/subtraction against a
non-int request value). -/
def canPerformOperationPlayer (m : PlayerMgr) (rq : StateOperationRequest) :
    Except String StateValidationResult :=
  let base := basePropertyOf rq.propertyPath
  if base = "hp" ∨ base = "current_hp" then
    if rq.operation = .opSubtract then
      match rq.value with
      | .pInt v =>
        if getAttribute m.character "current_hp" - v ≤ 0 then
          .ok { valid := true, reason := "生命值将降至0或以下",
                sideEffects := some [{ target := "player", propertyPath := "alive",
                                       operation := .opSet, value := .pBool false,
                                       reason := "生命值耗尽" }] }
        else .ok { valid := true, reason := "", sideEffects := none }
      | _ => .error "TypeError"
    else .ok { valid := true, reason := "", sideEffects := none }
  else if base = "mp" ∨ base = "current_mp" then
    if rq.operation = .opSubtract then
      match rq.value with
      | .pInt v =>
        if getAttribute m.character "current_mp" < v then
          .ok { valid := false, reason := "魔法值不足", sideEffects := none }
        else .ok { valid := true, reason := "", sideEffects := none }
      | _ => .error "TypeError"
    else .ok { valid := true, reason := "", sideEffects := none }
  else if base = "location" then .ok { valid := true, reason := "", sideEffects := none }
  else if base = "inventory" then
    if rq.operation = .opAppend ∨ rq.operation = .opAdd then
      if usedSlots m.inventory ≥ m.inventory.maxSlots then
        .ok { valid := false, reason := "背包已满", sideEffects := none }
      else .ok { valid := true, reason := "", sideEffects := none }
    else .ok { valid := true, reason := "", sideEffects := none }
  else if (aGet attributeDefinitions base).isSome then
    .ok { valid := true, reason := "", sideEffects := none }
  else .ok { valid := false, reason := "未知属性: " ++ base, sideEffects := none }

/-- The character mutation of a SET/ADD/SUBTRACT branch of
apply_operation on attribute `key` (set_attribute on a non-int value
raises inside the method's try block before mutating, so the state is
unchanged for non-int values). -/
def applyAttrOp (c : Character) (key : String) (op : OpType) (v : PyVal) : Character :=
  match v with
  | .pInt n =>
    match op with
    | .opSet => setAttribute c key n
    | .opAdd => modifyAttribute c key n
    | .opSubtract => modifyAttribute c key (-n)
    | _ => c
  | _ => c

/-- FillablePlayerStateManager.apply_operation, state effect.  The hp/mp
branches write current_hp/current_mp; the location branch stores str() of
the value for ANY operation; the inventory branch acts only on dict
values with APPEND/REMOVE; the final branch handles any defined
attribute. -/
def applyOperationPlayer (m : PlayerMgr) (rq : StateOperationRequest) : PlayerMgr :=
  let base := basePropertyOf rq.propertyPath
  if base = "hp" ∨ base = "current_hp" then
    { m with character := applyAttrOp m.character "current_hp" rq.operation rq.value }
  else if base = "mp" ∨ base = "current_mp" then
    { m with character := applyAttrOp m.character "current_mp" rq.operation rq.value }
  else if base = "location" then
    { m with currentLocation := pyToString rq.value }
  else if base = "inventory" then
    match rq.operation, rq.value with
    | .opAppend, .pDict it q => { m with inventory := (addItem m.inventory it q).1 }
    | .opRemove, .pDict it q => { m with inventory := (removeItem m.inventory it q).1 }
    | _, _ => m
  else if (aGet attributeDefinitions base).isSome then
    { m with character := applyAttrOp m.character base rq.operation rq.value }
  else m

/-- The value shapes FillablePlayerStateManager.get_current_value can
return. -/
inductive ValueRead where
  | rNone
  | rStr (s : String)
  | rInv (slots : List (Option (String × Int)))
  | rInt (i : Int)
deriving DecidableEq, Repr

/-- FillablePlayerStateManager.get_current_value, threaded through the
manager state as every method call is (the inventory branch returns
to_dict(), a pure projection of the slots). -/
def getCurrentValuePlayer (m : PlayerMgr) (target propertyPath : String) :
    ValueRead × PlayerMgr :=
  if ¬ supportsTargetPlayer target then (.rNone, m)
  else
    let base := basePropertyOf propertyPath
    if base = "location" then (.rStr m.currentLocation, m)
    else if base = "inventory" then (.rInv m.inventory.slots, m)
    else (.rInt (getAttribute m.character base), m)

/-! ## FillableNPCStateManager (fillable_state_managers.py)

State: a dict npc-id → npc-data dict.  can_perform_operation returns
plain results and NO side effects; apply_operation applies the death
side effect (alive := False, hp := 0) inline when an hp subtraction
lands at or below zero.  As with the player manager, the source's
returned StateChange is built with invalid keyword arguments; for an
existing NPC the TypeError is swallowed by the method's own except branch
(which builds a field-scrambled record positionally), and the mutation —
performed before the raise — stands.  Only the state effect is modeled. -/

/-- One NPC's data dict. -/
abbrev NpcData := List (String × PyVal)

/-- One FillableNPCStateManager. -/
structure NpcMgr where
  npcs : List (String × NpcData)
deriving DecidableEq, Repr

/-- FillableNPCStateManager._init_default_npcs. -/
def initNpcMgr : NpcMgr :=
  { npcs :=
    [("bartender_joe",
      [("name", .pStr "酒保乔"), ("location", .pStr "village_tavern"),
       ("hp", .pInt 80), ("max_hp", .pInt 80), ("alive", .pBool true),
       ("relationship", .pInt 0), ("dialogue_state", .pStr "greeting"),
       ("shop_inventory", .pStrList ["bread", "roasted_meat", "health_potion_small"]),
       ("personality", .pStr "friendly")]),
     ("blacksmith_tom",
      [("name", .pStr "铁匠汤姆"), ("location", .pStr "village_weapon_shop"),
       ("hp", .pInt 120), ("max_hp", .pInt 120), ("alive", .pBool true),
       ("relationship", .pInt 0), ("dialogue_state", .pStr "working"),
       ("shop_inventory", .pStrList ["lockpick", "strength_elixir"]),
       ("personality", .pStr "gruff")]),
     ("forest_goblin",
      [("name", .pStr "森林哥布林"), ("location", .pStr "dark_forest"),
       ("hp", .pInt 30), ("max_hp", .pInt 30), ("alive", .pBool true),
       ("relationship", .pInt (-50)), ("hostile", .pBool true),
       ("loot", .pStrList ["bread", "magic_dust"]),
       ("personality", .pStr "aggressive")])] }

/-- FillableNPCStateManager.supports_target. -/
def supportsTargetNpc (m : NpcMgr) (t : String) : Bool :=
  (aGet m.npcs t).isSome || t.startsWith "npc_"

/-- FillableNPCStateManager.can_perform_operation.  Note: every valid
outcome carries side_effects = None. -/
def canPerformOperationNpc (m : NpcMgr) (rq : StateOperationRequest) :
    StateValidationResult :=
  if ¬ supportsTargetNpc m rq.target then
    { valid := false, reason := "NPC不存在", sideEffects := none }
  else
    match aGet m.npcs rq.target with
    | none => { valid := false, reason := "NPC数据不存在", sideEffects := none }
    | some d =>
      if ¬ pyTruthy ((aGet d "alive").getD (.pBool true)) ∧ rq.propertyPath ≠ "alive" then
        { valid := false, reason := "NPC已死亡", sideEffects := none }
      else { valid := true, reason := "", sideEffects := none }

/-- The mutation of one NPC's data dict by apply_operation.  SUBTRACT on
"hp" landing at or below zero additionally sets alive := False and clamps
hp to 0 — the inline death side effect.  MULTIPLY/APPEND/REMOVE match no
branch and mutate nothing; failed arithmetic (TypeError) leaves the dict
unchanged. -/
def applyNpcDataOp (d : NpcData) (prop : String) (op : OpType) (v : PyVal) : NpcData :=
  match op with
  | .opSet => aSet d prop v
  | .opAdd =>
    match pyAdd ((aGet d prop).getD (.pInt 0)) v with
    | some v' => aSet d prop v'
    | none => d
  | .opSubtract =>
    match pySub ((aGet d prop).getD (.pInt 0)) v with
    | some v' =>
      let d1 := aSet d prop v'
      match v' with
      | .pInt n =>
        if prop = "hp" ∧ n ≤ 0 then aSet (aSet d1 "alive" (.pBool false)) "hp" (.pInt 0)
        else d1
      | _ => d1
    | none => d
  | _ => d

/-- FillableNPCStateManager.apply_operation, state effect (an unknown
target returns early with no mutation). -/
def applyOperationNpc (m : NpcMgr) (rq : StateOperationRequest) : NpcMgr :=
  match aGet m.npcs rq.target with
  | none => m
  | some d =>
    { npcs := aSet m.npcs rq.target (applyNpcDataOp d rq.propertyPath rq.operation rq.value) }

/-- FillableNPCStateManager.get_current_value, threaded. -/
def getCurrentValueNpc (m : NpcMgr) (target propertyPath : String) :
    Option PyVal × NpcMgr :=
  ((aGet m.npcs target).bind fun d => aGet d propertyPath, m)

/-! ## The game map (data/map_data.py) and the environment manager

GameMap holds locations keyed by id; create_starter_map builds seven
locations and their connections (none blocked).  Text fields
(names, descriptions), interactable objects and location properties are
omitted: find_path and check_accessibility read only ids, connections and
is_blocked.  find_path is a breadth-first search over a FIFO queue of
(current, path) pairs with a visited set. -/

/-- LocationConnection: the fields find_path reads (description and
requirements omitted; is_blocked defaults to False). -/
structure Conn where
  direction : String
  target : String
  isBlocked : Bool
deriving DecidableEq, Repr

/-- MapLocation, restricted to id/connections/visited. -/
structure MapLocation where
  id : String
  connections : List Conn
  visited : Bool
deriving DecidableEq, Repr

/-- The seven starter-map locations with the connections installed by
_setup_default_connections, in insertion order. -/
def starterLocations : List MapLocation :=
  [{ id := "village_center",
     connections :=
       [⟨"north", "village_tavern", false⟩,
        ⟨"east", "village_weapon_shop", false⟩,
        ⟨"south", "village_outskirts", false⟩],
     visited := false },
   { id := "village_tavern",
     connections := [⟨"south", "village_center", false⟩], visited := false },
   { id := "village_weapon_shop",
     connections := [⟨"west", "village_center", false⟩], visited := false },
   { id := "village_outskirts",
     connections :=
       [⟨"north", "village_center", false⟩,
        ⟨"west", "dark_forest", false⟩,
        ⟨"east", "mountain_path", false⟩],
     visited := false },
   { id := "dark_forest",
     connections :=
       [⟨"east", "village_outskirts", false⟩,
        ⟨"south", "abandoned_cave", false⟩],
     visited := false },
   { id := "mountain_path",
     connections := [⟨"west", "village_outskirts", false⟩], visited := false },
   { id := "abandoned_cave",
     connections := [⟨"north", "dark_forest", false⟩], visited := false }]

/-- The starter map's location ids. -/
def locIds : List String :=
  starterLocations.map MapLocation.id

/-- GameMap.get_location on the starter map. -/
def getLocation (id : String) : Option MapLocation :=
  starterLocations.find? fun l => l.id = id

/-- The inner for-loop of find_path: scan a location's connections; a
non-blocked connection to the goal returns the finished path at once,
otherwise unvisited targets are enqueued in order. -/
def expandConns (endId : String) (visited : List String) (path : List String) :
    List Conn → List (String × List String) →
    Option (List String) × List (String × List String)
  | [], acc => (none, acc)
  | c :: rest, acc =>
    if c.isBlocked then expandConns endId visited path rest acc
    else if c.target = endId then (some (path ++ [c.target]), acc)
    else if visited.contains c.target then expandConns endId visited path rest acc
    else expandConns endId visited path rest (acc ++ [(c.target, path ++ [c.target])])

/-- The while-loop of find_path.  Fuel only bounds the iteration count;
every concrete computation below finishes well within it. -/
def bfsLoop (endId : String) : Nat → List String → List (String × List String) → List String
  | 0, _, _ => []
  | _ + 1, _, [] => []
  | fuel + 1, visited, (cur, path) :: rest =>
    if visited.contains cur then bfsLoop endId fuel visited rest
    else
      let visited' := cur :: visited
      match getLocation cur with
      | none => bfsLoop endId fuel visited' rest
      | some loc =>
        match expandConns endId visited' path loc.connections rest with
        | (some p, _) => p
        | (none, queue') => bfsLoop endId fuel visited' queue'

/-- GameMap.find_path on the starter map ([] when no path exists).  The
loop pops at most 1 + (number of connection records) = 13 queue entries,
so fuel 100 is never exhausted. -/
def findPath (start endId : String) : List String :=
  if start = endId then [start]
  else bfsLoop endId 100 [] [(start, [start])]

/-- FillableEnvironmentStateManager.check_accessibility. -/
def checkAccessibility (fromLoc toLoc : String) : Bool :=
  (findPath fromLoc toLoc).length > 0

/-- One non-blocked connection hop in the starter map's adjacency graph. -/
def StepS (a b : String) : Prop :=
  ∃ l, getLocation a = some l ∧ ∃ c ∈ l.connections, c.isBlocked = false ∧ c.target = b

/-- Graph reachability: zero or more non-blocked hops. -/
def Reach (a b : String) : Prop :=
  Relation.ReflTransGen StepS a b

/-- All non-blocked one-hop targets of a node. -/
def nextTargets (a : String) : List String :=
  match getLocation a with
  | none => []
  | some l => (l.connections.filter fun c => ¬ c.isBlocked).map Conn.target

/-- Saturate a node list under one-hop expansion, `n` rounds. -/
def reachIter : Nat → List String → List String
  | 0, acc => acc
  | n + 1, acc =>
    reachIter n (acc ++ ((acc.flatMap nextTargets).filter fun x => ¬ acc.contains x))

/-! ## FillableEnvironmentStateManager state reads -/

/-- One FillableEnvironmentStateManager: the global-state dict and the
object-state dicts (its game_map is the starter map above). -/
structure EnvMgr where
  globalState : List (String × PyVal)
  objectStates : List (String × List (String × PyVal))
deriving DecidableEq, Repr

/-- getattr(location, property_path, None) for the MapLocation fields the
embedding carries; the omitted text/object fields would return data no
claim reads. -/
def locationAttr (l : MapLocation) (p : String) : Option PyVal :=
  if p = "id" then some (.pStr l.id)
  else if p = "visited" then some (.pBool l.visited)
  else none

/-- FillableEnvironmentStateManager.get_current_value, threaded. -/
def getCurrentValueEnv (m : EnvMgr) (target propertyPath : String) :
    Option PyVal × EnvMgr :=
  if target = "environment" then (aGet m.globalState propertyPath, m)
  else
    match aGet m.objectStates target with
    | some d => (aGet d propertyPath, m)
    | none =>
      match getLocation target with
      | some l => (locationAttr l propertyPath, m)
      | none => (none, m)

/-! ## Relations and concrete inputs used by the proofs -/

/-- Npc `b` differs from `a` at most in its hp field. -/
def hpOnly (a b : NPC) : Prop :=
  b = { a with hp := b.hp }

/-- World `w` differs from `w₀` at most in the player's hp and the NPCs' hp. -/
def WorldShape (w₀ w : World) : Prop :=
  w.player = { w₀.player with hp := w.player.hp } ∧
    List.Forall₂ hpOnly w₀.npcs w.npcs

/-- The spec's attack scenario: one NPC "goblin" with hp 4. -/
def gWorld4 : World :=
  { player := { hp := 100, maxHp := 100, mp := 50, maxMp := 50, location := "起始村庄",
                inventoryCount := 0, level := 1, gold := 100 },
    npcs := [{ name := "goblin", typ := "敌人", hp := 4, maxHp := 4, alive := true }] }

/-- The spec's attack intent targeting "goblin". -/
def atkIntent : Intent :=
  { category := "攻击", action := "攻击goblin", target := "goblin" }

/-- The hp-subtract StateChange the attack scenario commits. -/
def atkChange : StateChange :=
  { target := "goblin", action := "modify", property := "hp", value := 0, oldValue := 4 }

/-- A world for the healing-skill runs: player at 90/100 hp. -/
def healWorld : World :=
  { player := { hp := 90, maxHp := 100, mp := 50, maxMp := 50, location := "起始村庄",
                inventoryCount := 0, level := 1, gold := 100 },
    npcs := [{ name := "哥布林", typ := "敌人", hp := 15, maxHp := 15, alive := true }] }

/-- A healing-skill intent (the action name contains 治疗). -/
def healIntent : Intent :=
  { category := "技能", action := "治疗术", target := "" }

/-- An intent whose category is no recognised tag. -/
def unknownIntent : Intent :=
  { category := "飞行", action := "飞起来", target := "" }

/-- Dice fixed to 1 everywhere (checks fail, attack damage 3). -/
def diceOne : Dice :=
  ⟨1, 1, 1, 1, 1⟩

/-- A second attack-category function registered through
register_function: its can_execute always passes and its execute returns
a plain success. -/
def alwaysStrike : GameFunction where
  name := "alwaysStrike"
  category := "攻击"
  canExecute := fun _ _ => true
  run := fun _ _ =>
    ([], .ok { success := true, actionTaken := "strike", stateChanges := [],
               diceResults := [], failureReason := "" })

/-- The default functions with `alwaysStrike` registered after them. -/
def fnsWithStrike : List GameFunction :=
  defaultFunctions diceOne ++ [alwaysStrike]

/-- An attack intent whose target matches no NPC of `gWorld4`. -/
def dragonIntent : Intent :=
  { category := "攻击", action := "攻击巨龙", target := "dragon" }

/-- A player manager whose character has 5 mp (and 10 hp), the spec's
insufficient-resource scenario. -/
def mgr5 : PlayerMgr :=
  { character := { values := [("current_mp", 5), ("current_hp", 10)] },
    currentLocation := "village_center",
    inventory := { maxSlots := 30, slots := List.replicate 30 none, registryMaxStack := [] } }

/-- The scenario's operation request: subtract 10 mp. -/
def mpReq10 : StateOperationRequest :=
  { target := "player", propertyPath := "mp", operation := .opSubtract,
    value := .pInt 10, reason := "技能消耗" }

/-- A skill function that proposes an mp-subtract of 10 through the
transaction (as §4.2's action contract prescribes) and reports success. -/
def mpDrainSkill : GameFunction where
  name := "mp_drain_skill"
  category := "技能"
  canExecute := fun i _ => i.category = "技能"
  run := fun _ w =>
    let c : StateChange :=
      { target := "player", action := "modify", property := "mp",
        value := w.player.mp - 10, oldValue := w.player.mp }
    ([c], .ok { success := true, actionTaken := "施放吸魔技能", stateChanges := [c],
                diceResults := [], failureReason := "" })

/-- The registry after unregister("skill") and register(mpDrainSkill):
the 技能 bucket holds exactly the custom skill. -/
def fns7 : List GameFunction :=
  ((defaultFunctions diceOne).filter fun f => f.name ≠ "skill") ++ [mpDrainSkill]

/-- A skill intent for the mp-drain scenario. -/
def drainIntent : Intent :=
  { category := "技能", action := "吸魔", target := "" }

/-- A world whose player has 5 mp. -/
def w7 : World :=
  { player := { hp := 100, maxHp := 100, mp := 5, maxMp := 50, location := "起始村庄",
                inventoryCount := 0, level := 1, gold := 100 },
    npcs := [] }

/-- The StateChange mpDrainSkill proposes on `w7`. -/
def mpChange7 : StateChange :=
  { target := "player", action := "modify", property := "mp", value := -5, oldValue := 5 }

/-- One attribute entry respects its declared [min, max] range wherever a
value is stored for it. -/
def boundedAt (c : Character) (p : String × AttrDef) : Prop :=
  ∀ v, aGet c.values p.1 = some v →
    p.2.minValue ≤ v ∧ ∀ M, p.2.maxValue = some M → v ≤ M

/-- Every defined attribute's stored value lies within its declared
bounds. -/
def InBounds (c : Character) : Prop :=
  ∀ p ∈ attributeDefinitions, boundedAt c p

/-- Boolean form of `InBounds`, for evaluation on concrete characters. -/
def inBoundsB (c : Character) : Bool :=
  attributeDefinitions.all fun p =>
    match aGet c.values p.1 with
    | none => true
    | some v =>
      decide (p.2.minValue ≤ v) &&
        (match p.2.maxValue with
         | some M => decide (v ≤ M)
         | none => true)

/-! # Proofs

## Transaction round trip (claims about rollback)

add_change only ever writes the player's hp or an NPC's hp; the
`hpOnly`/`WorldShape` relations capture that, and rollback against the
__enter__ snapshot undoes any such evolution provided NPC names are
pairwise distinct — which RealWorldState guarantees by keying its npc
dict on `npc.name`. -/

lemma forall₂_hpOnly_refl : ∀ l : List NPC, List.Forall₂ hpOnly l l := by
  intro l
  induction l with
  | nil => exact List.Forall₂.nil
  | cons a t ih => exact List.Forall₂.cons rfl ih

lemma worldShape_refl (w : World) : WorldShape w w :=
  ⟨rfl, forall₂_hpOnly_refl w.npcs⟩

lemma hpOnly_update (a b : NPC) (v : Int) (h : hpOnly a b) :
    hpOnly a { b with hp := v } := by
  rw [hpOnly] at h ⊢
  rw [h]

lemma worldShape_applyChange (w₀ w : World) (c : StateChange)
    (h : WorldShape w₀ w) : WorldShape w₀ (applyChange w c) := by
  obtain ⟨hp, hn⟩ := h
  rw [applyChange]
  split
  · exact ⟨by rw [hp], hn⟩
  · refine ⟨hp, ?_⟩
    rw [List.forall₂_map_right_iff]
    refine hn.imp ?_
    intro a b hab
    dsimp only
    split
    · exact hpOnly_update a b c.value hab
    · exact hab

lemma worldShape_applyChanges (cs : List StateChange) :
    ∀ w₀ w : World, WorldShape w₀ w → WorldShape w₀ (applyChanges w cs) := by
  induction cs with
  | nil => intro w₀ w h; exact h
  | cons c t ih =>
    intro w₀ w h
    exact ih w₀ (applyChange w c) (worldShape_applyChange w₀ w c h)

lemma snapFold_notmem (nm : String) :
    ∀ (t : List (String × Int)) (acc : Option Int), (∀ p ∈ t, p.1 ≠ nm) →
      t.foldl (fun acc p => if p.1 = nm then some p.2 else acc) acc = acc := by
  intro t
  induction t with
  | nil => intro acc _; rfl
  | cons p t ih =>
    intro acc h
    have hp : p.1 ≠ nm := h p (List.mem_cons_self p t)
    simp only [List.foldl_cons, if_neg hp]
    exact ih acc fun q hq => h q (List.mem_cons_of_mem p hq)

lemma snapFold_indep (nm : String) :
    ∀ (t : List (String × Int)) (a b : Option Int), (∃ p ∈ t, p.1 = nm) →
      t.foldl (fun acc p => if p.1 = nm then some p.2 else acc) a =
        t.foldl (fun acc p => if p.1 = nm then some p.2 else acc) b := by
  intro t
  induction t with
  | nil => intro a b h; exact absurd h (by simp)
  | cons p t ih =>
    intro a b h
    by_cases hp : p.1 = nm
    · simp only [List.foldl_cons, if_pos hp]
    · simp only [List.foldl_cons, if_neg hp]
      obtain ⟨q, hq, hq1⟩ := h
      rcases List.mem_cons.mp hq with hqp | hqt
      · exact absurd (hqp ▸ hq1) hp
      · exact ih a b ⟨q, hqt, hq1⟩

/-- With pairwise-distinct NPC names, the __enter__ snapshot dict maps
each NPC's name to its hp at snapshot time. -/
lemma snapFind_mem :
    ∀ npcs : List NPC, (npcs.map NPC.name).Nodup →
      ∀ n ∈ npcs, snapFind (npcs.map fun x => (x.name, x.hp)) n.name = some n.hp := by
  intro npcs
  induction npcs with
  | nil => intro _ n hn; exact absurd hn (List.not_mem_nil n)
  | cons x t ih =>
    intro hnd n hn
    rw [List.map_cons, List.nodup_cons] at hnd
    rcases List.mem_cons.mp hn with h | h
    · subst h
      simp only [snapFind, List.map_cons, List.foldl_cons, if_pos rfl]
      refine snapFold_notmem n.name _ _ ?_
      intro p hp hcontra
      obtain ⟨y, hy, hyp⟩ := List.mem_map.mp hp
      apply hnd.1
      have hyn : y.name = n.name := by rw [← hyp] at hcontra; exact hcontra
      rw [← hyn]
      exact List.mem_map_of_mem NPC.name hy
    · have hmem : ∃ p ∈ t.map fun x => (x.name, x.hp), p.1 = n.name :=
        ⟨(n.name, n.hp), List.mem_map_of_mem _ h, rfl⟩
      have hih := ih hnd.2 n h
      simp only [snapFind, List.map_cons, List.foldl_cons] at hih ⊢
      rw [snapFold_indep n.name _ _ none hmem]
      exact hih

lemma map_restore (snap : List (String × Int)) :
    ∀ l₁ l₂ : List NPC, List.Forall₂ hpOnly l₁ l₂ →
      (∀ a ∈ l₁, snapFind snap a.name = some a.hp) →
      (l₂.map fun n =>
        match snapFind snap n.name with
        | some h => { n with hp := h }
        | none => n) = l₁ := by
  intro l₁ l₂ hf
  induction hf with
  | nil => intro _; rfl
  | @cons a b l₁ l₂ hab _ ih =>
    intro hlook
    have hname : b.name = a.name := by rw [hab]
    have hb : snapFind snap b.name = some a.hp := by
      rw [hname]; exact hlook a (List.mem_cons_self a l₁)
    simp only [List.map_cons, hb]
    refine congrArg₂ List.cons ?_ (ih fun x hx => hlook x (List.mem_cons_of_mem a hx))
    rw [hab]

/-- Rollback against the snapshot of `w₀` undoes any hp-only evolution of
`w₀`, given pairwise-distinct NPC names. -/
lemma rollback_of_shape (w₀ w : World) (h : WorldShape w₀ w)
    (hnd : (w₀.npcs.map NPC.name).Nodup) : rollback (mkSnapshot w₀) w = w₀ := by
  obtain ⟨hp, hn⟩ := h
  rw [rollback, mkSnapshot]
  have hplayer : { w.player with hp := w₀.player.hp } = w₀.player := by rw [hp]
  have hnpcs := map_restore (w₀.npcs.map fun x => (x.name, x.hp)) w₀.npcs w.npcs hn
    (fun a ha => snapFind_mem w₀.npcs hnd a ha)
  cases w₀
  simp only at hplayer hnpcs ⊢
  rw [hplayer, hnpcs]

/-! ## C1 and C2: atomicity and commit completeness -/

/-- C1: Atomicity of a faulting transaction.  For any dispatch that
reaches execution (`findFunctionsByIntent` yields `f` first and its
can_execute passes), if the action's execute adds any list of changes
through the transaction and then raises, `process` returns the world in
exactly its pre-action state, field by field — the rollback runs on scope
exit of the transaction, without the action's cooperation.  The
pairwise-distinct-NPC-name hypothesis is guaranteed by RealWorldState,
which keys its npc dict on npc.name. -/
theorem c1_transaction_atomicity
    (fns : List GameFunction) (i : Intent) (w : World)
    (f : GameFunction) (rest : List GameFunction) (cs : List StateChange) (m : String)
    (hnd : (w.npcs.map NPC.name).Nodup)
    (hf : findFunctionsByIntent fns i = f :: rest)
    (hc : f.canExecute i w = true)
    (hr : f.run i w = (cs, PyOutcome.exn m)) :
    (process fns i w).world = w := by
  simp only [process, hf, hc, if_true, hr]
  exact rollback_of_shape w _ (worldShape_applyChanges cs w w (worldShape_refl w)) hnd

/-- C1 witness: the built-in healing skill adds an hp change (90 → 97)
through the transaction and then raises (the metadata TypeError); the
world process returns is exactly the starting world. -/
theorem c1_witness :
    (process (defaultFunctions ⟨1, 1, 1, 15, 5⟩) healIntent healWorld).world = healWorld :=
  c1_transaction_atomicity (defaultFunctions ⟨1, 1, 1, 15, 5⟩) healIntent healWorld
    (skillFunction 15 5) []
    [{ target := "player", action := "modify", property := "hp", value := 97, oldValue := 90 }]
    metadataTypeError (by decide) rfl rfl rfl

/-- C2: Commit completeness.  When the executed action returns a result
with success = true, commit() hands the transaction's full ordered
applied-change list to process, which overwrites result.state_changes
with it: the returned result's state_changes equal that list element for
element, no change dropped and none duplicated. -/
theorem c2_commit_completeness
    (fns : List GameFunction) (i : Intent) (w : World)
    (f : GameFunction) (rest : List GameFunction) (cs : List StateChange)
    (r : ExecutionResult)
    (hf : findFunctionsByIntent fns i = f :: rest)
    (hc : f.canExecute i w = true)
    (hr : f.run i w = (cs, PyOutcome.ok r))
    (hs : r.success = true) :
    (process fns i w).result.stateChanges = cs := by
  simp only [process, hf, hc, if_true, hr, hs]

/-- C2 witness: the attack scenario commits exactly the one hp change the
attack added. -/
theorem c2_witness :
    (process (defaultFunctions ⟨4, 1, 1, 1, 1⟩) atkIntent gWorld4).result.stateChanges =
      [atkChange] :=
  c2_commit_completeness (defaultFunctions ⟨4, 1, 1, 1, 1⟩) atkIntent gWorld4
    (attackFunction 4) [] [atkChange]
    { success := true, actionTaken := "攻击goblin造成6点伤害，将其击败",
      stateChanges := [atkChange],
      diceResults := [{ name := "伤害骰", diceType := "1d6", result := 4, modifier := 2 }],
      failureReason := "" }
    rfl rfl rfl rfl

/-! ## C3 and C4: dispatch and the unknown-category path -/

lemma append_ne_empty_left (a b : String) (h : a ≠ "") : a ++ b ≠ "" := by
  intro hc
  apply h
  have hlen : (a ++ b).length = 0 := by rw [hc]; rfl
  rw [String.length_append] at hlen
  have : a.length = 0 := by omega
  cases a with
  | mk data =>
    cases data with
    | nil => rfl
    | cons c t => simp [String.length, List.length] at this

lemma append_ne_empty_right (a b : String) (h : b ≠ "") : a ++ b ≠ "" := by
  intro hc
  apply h
  have hlen : (a ++ b).length = 0 := by rw [hc]; rfl
  rw [String.length_append] at hlen
  have : b.length = 0 := by omega
  cases b with
  | mk data =>
    cases data with
    | nil => rfl
    | cons c t => simp [String.length, List.length] at this

/-- C3 (amended): process consults only the FIRST function registered
under the intent's category.  With no function registered, or when that
first function's can_execute fails, it returns a failed ExecutionResult
with a non-empty reason (and no exception: the embedding of process is a
total function).  When the first function's can_execute passes, process
executes it — the history entry names it and the returned result is built
from its outcome.  Later-registered passing functions are never
consulted. -/
theorem c3_first_registered_dispatch (fns : List GameFunction) (i : Intent) (w : World) :
    (findFunctionsByIntent fns i = [] →
      (process fns i w).result.success = false ∧
      (process fns i w).result.failureReason ≠ "") ∧
    (∀ f rest, findFunctionsByIntent fns i = f :: rest →
      (f.canExecute i w = false →
        (process fns i w).result.success = false ∧
        (process fns i w).result.failureReason ≠ "") ∧
      (f.canExecute i w = true →
        ∀ cs r, f.run i w = (cs, PyOutcome.ok r) →
          (process fns i w).historyEntry = some f.name ∧
          (process fns i w).result =
            (if r.success then { r with stateChanges := cs } else r))) := by
  constructor
  · intro h
    simp only [process, h, failResult]
    exact ⟨trivial, append_ne_empty_right _ _ (by decide)⟩
  · intro f rest hf
    constructor
    · intro hc
      simp only [process, hf, hc, Bool.false_eq_true, if_false, failResult]
      exact ⟨trivial, append_ne_empty_right _ _ (by decide)⟩
    · intro hc cs r hr
      simp only [process, hf, hc, if_true, hr]
      exact ⟨trivial, trivial⟩

/-- C3 witness: the default engine on an unknown-category intent hits the
no-function branch of the theorem. -/
theorem c3_witness :
    (process (defaultFunctions diceOne) unknownIntent gWorld4).result.success = false ∧
    (process (defaultFunctions diceOne) unknownIntent gWorld4).result.failureReason ≠ "" :=
  (c3_first_registered_dispatch (defaultFunctions diceOne) unknownIntent gWorld4).1 rfl

/-- C3 counterexample to the claim as stated: with a second
attack-category function registered whose can_execute passes, and a
target the first (built-in) attack function cannot match, at least one
registered function passes — yet process returns a failed result instead
of executing that first passing function, because it only ever consults
functions[0]. -/
theorem c3_counterexample :
    findFunctionsByIntent fnsWithStrike dragonIntent =
      [attackFunction 1, alwaysStrike] ∧
    (attackFunction 1).canExecute dragonIntent gWorld4 = false ∧
    alwaysStrike.canExecute dragonIntent gWorld4 = true ∧
    (process fnsWithStrike dragonIntent gWorld4).result.success = false ∧
    (process fnsWithStrike dragonIntent gWorld4).historyEntry = none :=
  ⟨rfl, rfl, rfl, rfl, rfl⟩

/-- The default engine registers nothing under the fallback 其他
category. -/
lemma defaultFunctions_no_other (d : Dice) :
    functionsByCategory (defaultFunctions d) "其他" = [] := by
  simp [defaultFunctions, functionsByCategory, attackFunction, searchFunction,
    dialogueFunction, tradeFunction, statusFunction, movementFunction,
    interactionFunction, skillFunction]

/-- C4 (amended): for an intent whose category is not a recognised tag
(the default engine registers nothing under 其他), process returns
success = false with a non-empty failure_reason, leaves the world
untouched — and appends NO execution-history entry: the history is only
written on the path that actually executes a function, so it grows by
zero entries, not one. -/
theorem c4_unknown_category (d : Dice) (i : Intent) (w : World)
    (h : i.category ∉ knownCategories) :
    (process (defaultFunctions d) i w).result.success = false ∧
    (process (defaultFunctions d) i w).result.failureReason ≠ "" ∧
    (process (defaultFunctions d) i w).historyEntry = none ∧
    (process (defaultFunctions d) i w).world = w := by
  have hkey : categoryKey i.category = "其他" := by
    rw [categoryKey, if_neg h]
  have hfind : findFunctionsByIntent (defaultFunctions d) i = [] := by
    rw [findFunctionsByIntent, hkey, defaultFunctions_no_other]
  simp only [process, hfind, failResult]
  exact ⟨trivial, append_ne_empty_right _ _ (by decide), trivial, trivial⟩

/-- C4 witness: the 飞行 intent against the default engine. -/
theorem c4_witness :
    (process (defaultFunctions diceOne) unknownIntent gWorld4).result.success = false ∧
    (process (defaultFunctions diceOne) unknownIntent gWorld4).result.failureReason ≠ "" ∧
    (process (defaultFunctions diceOne) unknownIntent gWorld4).historyEntry = none ∧
    (process (defaultFunctions diceOne) unknownIntent gWorld4).world = gWorld4 :=
  c4_unknown_category diceOne unknownIntent gWorld4 (by decide)

/-- C4 counterexample to the claim as stated: on the unknown-category
call the in-memory execution history does NOT grow by one entry — no
entry is appended at all (the failure result itself is as claimed). -/
theorem c4_counterexample :
    (process (defaultFunctions diceOne) unknownIntent gWorld4).historyEntry = none ∧
    (process (defaultFunctions diceOne) unknownIntent gWorld4).result.success = false :=
  ⟨rfl, rfl⟩

/-! ## C5: the attack scenario -/

/-- C5 (amended): attack on "goblin" (hp 4) with forced damage total
roll + 2 ≥ 4 returns success = true and commits exactly one StateChange —
the hp-subtract landing at 0.  NO cascading alive StateChange is produced
and the NPC's alive flag in the world stays true: AttackFunction proposes
only the hp change through the transaction and never routes through the
NPC state manager that owns the death side effect. -/
theorem c5_attack_defeats_goblin (roll : Int) (h : 4 ≤ roll + 2) :
    (process (defaultFunctions ⟨roll, 1, 1, 1, 1⟩) atkIntent gWorld4).result.success = true ∧
    (process (defaultFunctions ⟨roll, 1, 1, 1, 1⟩) atkIntent gWorld4).result.stateChanges =
      [atkChange] ∧
    (process (defaultFunctions ⟨roll, 1, 1, 1, 1⟩) atkIntent gWorld4).world.npcs =
      [{ name := "goblin", typ := "敌人", hp := 0, maxHp := 4, alive := true }] := by
  have hmax : max (0 : Int) (4 - (roll + 2)) = 0 := by omega
  have hnpc : findNpcByName gWorld4.npcs atkIntent.target =
      some { name := "goblin", typ := "敌人", hp := 4, maxHp := 4, alive := true } := rfl
  have hfind : findFunctionsByIntent (defaultFunctions ⟨roll, 1, 1, 1, 1⟩) atkIntent =
      [attackFunction roll] := rfl
  have hcan : (attackFunction roll).canExecute atkIntent gWorld4 = true := rfl
  have hrun : (attackFunction roll).run atkIntent gWorld4 =
      ([atkChange],
       .ok { success := true,
             actionTaken := "攻击goblin造成" ++ toString (roll + 2) ++ "点伤害，将其击败",
             stateChanges := [atkChange],
             diceResults := [{ name := "伤害骰", diceType := "1d6", result := roll, modifier := 2 }],
             failureReason := "" }) := by
    simp only [attackFunction, hnpc, atkChange, hmax]
    norm_num
    rw [show ("攻击" ++ "goblin" : String) = "攻击goblin" from rfl,
      show ("攻击goblin" ++ "造成" : String) = "攻击goblin造成" from rfl]
  simp only [process, hfind, hcan, if_true, hrun]
  refine ⟨trivial, trivial, ?_⟩
  simp [applyChanges, applyChange, atkChange, gWorld4]

/-- C5 witness: the amended scenario at forced damage die 4 (total 6). -/
theorem c5_witness :
    (process (defaultFunctions ⟨4, 1, 1, 1, 1⟩) atkIntent gWorld4).result.success = true ∧
    (process (defaultFunctions ⟨4, 1, 1, 1, 1⟩) atkIntent gWorld4).result.stateChanges =
      [atkChange] ∧
    (process (defaultFunctions ⟨4, 1, 1, 1, 1⟩) atkIntent gWorld4).world.npcs =
      [{ name := "goblin", typ := "敌人", hp := 0, maxHp := 4, alive := true }] :=
  c5_attack_defeats_goblin 4 (by decide)

/-- C5 counterexample to the claim as stated: at damage total 6 ≥ 4 the
result succeeds and sets hp to 0, but its state_changes contain NO change
touching the alive property — the claimed cascading alive=false
StateChange does not exist, and the world's goblin is still flagged
alive. -/
theorem c5_counterexample :
    (process (defaultFunctions ⟨4, 1, 1, 1, 1⟩) atkIntent gWorld4).result.success = true ∧
    (process (defaultFunctions ⟨4, 1, 1, 1, 1⟩) atkIntent gWorld4).result.stateChanges =
      [atkChange] ∧
    ((process (defaultFunctions ⟨4, 1, 1, 1, 1⟩) atkIntent gWorld4).result.stateChanges.filter
      fun c => c.property = "alive") = [] ∧
    (process (defaultFunctions ⟨4, 1, 1, 1, 1⟩) atkIntent gWorld4).world.npcs.map NPC.alive =
      [true] :=
  ⟨rfl, rfl, rfl, rfl⟩

/-! ## C6: the NPC death side effect -/

lemma aGet_cons {α : Type} (a : String) (b : α) (t : List (String × α)) (k : String) :
    aGet ((a, b) :: t) k = if a = k then some b else aGet t k := by
  by_cases h : a = k
  · simp [aGet, List.find?, h]
  · simp [aGet, List.find?, h]

lemma aGet_aSet_self {α : Type} (d : List (String × α)) (k : String) (v : α) :
    aGet (aSet d k v) k = some v := by
  induction d with
  | nil => simp [aSet, aGet_cons]
  | cons p t ih =>
    obtain ⟨a, b⟩ := p
    rw [aSet]
    split
    · rename_i hk
      simp only at hk
      subst hk
      simp [aGet_cons]
    · rename_i hne
      simp only at hne
      rw [aGet_cons, if_neg hne]
      exact ih

lemma aGet_aSet_ne {α : Type} (d : List (String × α)) (k k' : String) (v : α)
    (h : k' ≠ k) : aGet (aSet d k v) k' = aGet d k' := by
  induction d with
  | nil =>
    rw [aSet, aGet_cons, if_neg (fun hh => h (Eq.symm hh))]
  | cons p t ih =>
    obtain ⟨a, b⟩ := p
    rw [aSet]
    split
    · rename_i hk
      simp only at hk
      subst hk
      rw [aGet_cons, aGet_cons, if_neg (fun hh => h hh.symm), if_neg (fun hh => h hh.symm)]
    · rw [aGet_cons, aGet_cons]
      split
      · rfl
      · exact ih

/-- C6 (amended): on any SUBTRACT request for an NPC's hp whose result
lands at or below zero (the NPC being alive), the NPC manager's
can_perform_operation returns valid = true — but with NO cascading
side-effect request (side_effects is None); the alive=false death effect
is instead applied INLINE by apply_operation itself, exactly once within
that single call, which leaves the NPC's dict with alive = False and hp
clamped to 0.  No recursive validate-then-apply pipeline with a depth
guard exists in the code. -/
theorem c6_npc_death_inline (m : NpcMgr) (target : String) (d : NpcData)
    (hp v : Int) (reason : String)
    (hd : aGet m.npcs target = some d)
    (hhp : aGet d "hp" = some (.pInt hp))
    (halive : pyTruthy ((aGet d "alive").getD (.pBool true)) = true)
    (hle : hp - v ≤ 0) :
    canPerformOperationNpc m
        { target := target, propertyPath := "hp", operation := .opSubtract,
          value := .pInt v, reason := reason } =
      { valid := true, reason := "", sideEffects := none } ∧
    aGet (applyOperationNpc m
        { target := target, propertyPath := "hp", operation := .opSubtract,
          value := .pInt v, reason := reason }).npcs target = some
      (aSet (aSet (aSet d "hp" (.pInt (hp - v))) "alive" (.pBool false)) "hp" (.pInt 0)) ∧
    aGet (applyNpcDataOp d "hp" .opSubtract (.pInt v)) "alive" = some (.pBool false) ∧
    aGet (applyNpcDataOp d "hp" .opSubtract (.pInt v)) "hp" = some (.pInt 0) := by
  have hsupports : supportsTargetNpc m target = true := by
    rw [supportsTargetNpc, hd]
    rfl
  have happly : applyNpcDataOp d "hp" .opSubtract (.pInt v) =
      aSet (aSet (aSet d "hp" (.pInt (hp - v))) "alive" (.pBool false)) "hp" (.pInt 0) := by
    rw [applyNpcDataOp, hhp]
    simp only [Option.getD_some, pySub]
    rw [if_pos ⟨trivial, hle⟩]
  refine ⟨?_, ?_, ?_, ?_⟩
  · simp [canPerformOperationNpc, hsupports, hd, halive]
  · simp only [applyOperationNpc, hd, happly]
    exact aGet_aSet_self _ _ _
  · rw [happly, aGet_aSet_ne _ _ _ _ (by decide)]
    exact aGet_aSet_self _ _ _
  · rw [happly]
    exact aGet_aSet_self _ _ _

/-- C6 witness: the default forest goblin (hp 30, alive) hit with an
hp-subtract of 40. -/
theorem c6_witness :
    canPerformOperationNpc initNpcMgr
        { target := "forest_goblin", propertyPath := "hp", operation := .opSubtract,
          value := .pInt 40, reason := "攻击伤害" } =
      { valid := true, reason := "", sideEffects := none } ∧
    aGet (applyOperationNpc initNpcMgr
        { target := "forest_goblin", propertyPath := "hp", operation := .opSubtract,
          value := .pInt 40, reason := "攻击伤害" }).npcs "forest_goblin" = some
      (aSet (aSet (aSet ((aGet initNpcMgr.npcs "forest_goblin").getD [])
        "hp" (.pInt (30 - 40))) "alive" (.pBool false)) "hp" (.pInt 0)) ∧
    aGet (applyNpcDataOp ((aGet initNpcMgr.npcs "forest_goblin").getD [])
      "hp" .opSubtract (.pInt 40)) "alive" = some (.pBool false) ∧
    aGet (applyNpcDataOp ((aGet initNpcMgr.npcs "forest_goblin").getD [])
      "hp" .opSubtract (.pInt 40)) "hp" = some (.pInt 0) :=
  c6_npc_death_inline initNpcMgr "forest_goblin"
    ((aGet initNpcMgr.npcs "forest_goblin").getD []) 30 40 "攻击伤害"
    rfl rfl rfl (by decide)

/-- C6 counterexample to the claim as stated: the validation result for
the goblin's lethal hp-subtract carries side_effects = None — there is no
cascading alive=false StateOperationRequest in it, contrary to the
claim. -/
theorem c6_counterexample :
    canPerformOperationNpc initNpcMgr
        { target := "forest_goblin", propertyPath := "hp", operation := .opSubtract,
          value := .pInt 40, reason := "攻击伤害" } =
      { valid := true, reason := "", sideEffects := none } :=
  rfl

/-! ## C7: insufficient mana -/

/-- C7 (amended): the player manager's can_perform_operation rejects any
mp SUBTRACT whose value exceeds the character's current mp, returning
valid = false with the non-empty reason 魔法值不足; and the built-in
SkillFunction never proposes an mp change at all — every StateChange it
ever passes to the transaction targets the player's hp — so no built-in
process path can even submit the scenario's subtract (and process never
consults the state managers). -/
theorem c7_insufficient_mp (m : PlayerMgr) (v : Int) (path target' reason' : String)
    (hbase : basePropertyOf path = "mp" ∨ basePropertyOf path = "current_mp")
    (hlt : getAttribute m.character "current_mp" < v) :
    canPerformOperationPlayer m
        { target := target', propertyPath := path, operation := .opSubtract,
          value := .pInt v, reason := reason' } =
      Except.ok { valid := false, reason := "魔法值不足", sideEffects := none } ∧
    ("魔法值不足" : String) ≠ "" ∧
    ∀ (r h : Int) (i : Intent) (w : World),
      ∀ c ∈ ((skillFunction r h).run i w).1, c.property = "hp" ∧ c.target = "player" := by
  refine ⟨?_, by decide, ?_⟩
  · rcases hbase with hb | hb <;>
      simp [canPerformOperationPlayer, hb, hlt, if_neg]
  · intro r h i w c hc
    simp only [skillFunction] at hc
    split at hc
    · split at hc
      · split at hc
        · rcases List.mem_singleton.mp hc with rfl
          exact ⟨rfl, rfl⟩
        · exact absurd hc (List.not_mem_nil c)
      · exact absurd hc (List.not_mem_nil c)
    · exact absurd hc (List.not_mem_nil c)

/-- C7 witness: the scenario manager (mp 5) rejecting a subtract of 10. -/
theorem c7_witness :
    canPerformOperationPlayer mgr5
        { target := "player", propertyPath := "mp", operation := .opSubtract,
          value := .pInt 10, reason := "技能消耗" } =
      Except.ok { valid := false, reason := "魔法值不足", sideEffects := none } ∧
    ("魔法值不足" : String) ≠ "" ∧
    ∀ (r h : Int) (i : Intent) (w : World),
      ∀ c ∈ ((skillFunction r h).run i w).1, c.property = "hp" ∧ c.target = "player" :=
  c7_insufficient_mp mgr5 10 "mp" "player" "技能消耗" (Or.inl rfl) (by decide)

/-- C7 counterexample to the claim as stated: the manager does reject the
subtract (valid = false, 魔法值不足), but a process call whose skill
proposes exactly that subtract (a 技能-bucket function submitting an
mp-subtract through the transaction, reachable via unregister + register)
returns success = TRUE and even reports the mp change as committed —
process never consults the player manager.  (The world is untouched only
because add_change happens to apply nothing but hp changes.) -/
theorem c7_counterexample :
    canPerformOperationPlayer mgr5 mpReq10 =
      Except.ok { valid := false, reason := "魔法值不足", sideEffects := none } ∧
    findFunctionsByIntent fns7 drainIntent = [mpDrainSkill] ∧
    (process fns7 drainIntent w7).result.success = true ∧
    (process fns7 drainIntent w7).result.stateChanges = [mpChange7] ∧
    (process fns7 drainIntent w7).world = w7 :=
  ⟨rfl, rfl, rfl, rfl, rfl⟩

/-! ## C8: accessibility is graph reachability -/

lemma step_of_nextTargets (y x : String) (h : x ∈ nextTargets y) : StepS y x := by
  rw [nextTargets] at h
  cases hy : getLocation y with
  | none => rw [hy] at h; exact absurd h (List.not_mem_nil x)
  | some l =>
    rw [hy] at h
    obtain ⟨c, hc, hct⟩ := List.mem_map.mp h
    obtain ⟨hcm, hcb⟩ := List.mem_filter.mp hc
    exact ⟨l, hy, c, hcm, by simpa using hcb, hct⟩

lemma reachIter_sound (a : String) : ∀ (n : Nat) (acc : List String),
    (∀ x ∈ acc, Reach a x) → ∀ b ∈ reachIter n acc, Reach a b := by
  intro n
  induction n with
  | zero => intro acc h b hb; exact h b hb
  | succ n ih =>
    intro acc h b hb
    rw [reachIter] at hb
    refine ih _ ?_ b hb
    intro x hx
    rcases List.mem_append.mp hx with hx | hx
    · exact h x hx
    · obtain ⟨hx', _⟩ := List.mem_filter.mp hx
      obtain ⟨y, hy, hxy⟩ := List.mem_flatMap.mp hx'
      exact Relation.ReflTransGen.tail (h y hy) (step_of_nextTargets y x hxy)

/-- Every location-id pair passes check_accessibility (the starter map is
strongly connected). -/
lemma allPairs_access :
    (locIds.all fun a => locIds.all fun b => checkAccessibility a b) = true := by
  decide

/-- Every location-id pair is covered by ten rounds of one-hop
saturation. -/
lemma allPairs_reach :
    (locIds.all fun a => locIds.all fun b => decide (b ∈ reachIter 10 [a])) = true := by
  decide

/-- C8: for every pair of starter-map locations, check_accessibility
(which runs find_path's breadth-first search over the non-blocked
location-adjacency graph and tests the path non-empty) returns true
exactly when the destination is reachable from the origin along
non-blocked connections. -/
theorem c8_accessibility_is_reachability (a b : String)
    (ha : a ∈ locIds) (hb : b ∈ locIds) :
    checkAccessibility a b = true ↔ Reach a b := by
  constructor
  · intro _
    have h1 := allPairs_reach
    rw [List.all_eq_true] at h1
    have h2 := h1 a ha
    rw [List.all_eq_true] at h2
    have hmem : b ∈ reachIter 10 [a] := of_decide_eq_true (h2 b hb)
    refine reachIter_sound a 10 [a] ?_ b hmem
    intro x hx
    rcases List.mem_singleton.mp hx with rfl
    exact Relation.ReflTransGen.refl
  · intro _
    have h1 := allPairs_access
    rw [List.all_eq_true] at h1
    have h2 := h1 a ha
    rw [List.all_eq_true] at h2
    exact h2 b hb

/-- C8 witness: village_center reaches the abandoned cave. -/
theorem c8_witness :
    checkAccessibility "village_center" "abandoned_cave" = true ↔
      Reach "village_center" "abandoned_cave" :=
  c8_accessibility_is_reachability "village_center" "abandoned_cave"
    (by decide) (by decide)

/-! ## C9: idempotent reads -/

lemma playerRead_state (m : PlayerMgr) (t p : String) :
    (getCurrentValuePlayer m t p).2 = m := by
  rw [getCurrentValuePlayer]
  split
  · rfl
  · dsimp only
    split
    · rfl
    · split
      · rfl
      · rfl

lemma npcRead_state (m : NpcMgr) (t p : String) :
    (getCurrentValueNpc m t p).2 = m := rfl

lemma envRead_state (m : EnvMgr) (t p : String) :
    (getCurrentValueEnv m t p).2 = m := by
  rw [getCurrentValueEnv]
  split
  · rfl
  · split
    · rfl
    · split
      · rfl
      · rfl

/-- C9: get_current_value on each registered state manager (player, NPC,
environment) returns the manager state unchanged, and a second identical
call — run on the state the first call returned — yields the same value;
and the can_execute check in process mutates nothing: when the dispatched
function's can_execute fails, process hands back the world exactly as it
received it. -/
theorem c9_idempotent_reads :
    (∀ (m : PlayerMgr) (t p : String),
      (getCurrentValuePlayer m t p).2 = m ∧
      (getCurrentValuePlayer (getCurrentValuePlayer m t p).2 t p).1 =
        (getCurrentValuePlayer m t p).1) ∧
    (∀ (m : NpcMgr) (t p : String),
      (getCurrentValueNpc m t p).2 = m ∧
      (getCurrentValueNpc (getCurrentValueNpc m t p).2 t p).1 =
        (getCurrentValueNpc m t p).1) ∧
    (∀ (m : EnvMgr) (t p : String),
      (getCurrentValueEnv m t p).2 = m ∧
      (getCurrentValueEnv (getCurrentValueEnv m t p).2 t p).1 =
        (getCurrentValueEnv m t p).1) ∧
    (∀ (fns : List GameFunction) (i : Intent) (w : World)
       (f : GameFunction) (rest : List GameFunction),
      findFunctionsByIntent fns i = f :: rest → f.canExecute i w = false →
      (process fns i w).world = w) := by
  refine ⟨?_, ?_, ?_, ?_⟩
  · intro m t p
    exact ⟨playerRead_state m t p, by rw [playerRead_state]⟩
  · intro m t p
    exact ⟨npcRead_state m t p, by rw [npcRead_state]⟩
  · intro m t p
    exact ⟨envRead_state m t p, by rw [envRead_state]⟩
  · intro fns i w f rest hf hc
    simp only [process, hf, hc, Bool.false_eq_true, if_false]

/-- C9 witness: a failing attack can_execute leaves the world as handed
in, and a player-manager read leaves the manager as handed in. -/
theorem c9_witness :
    (process (defaultFunctions diceOne) dragonIntent gWorld4).world = gWorld4 ∧
    (getCurrentValuePlayer mgr5 "player" "current_mp").2 = mgr5 :=
  ⟨c9_idempotent_reads.2.2.2 (defaultFunctions diceOne) dragonIntent gWorld4
     (attackFunction 1) [] rfl rfl,
   (c9_idempotent_reads.1 mgr5 "player" "current_mp").1⟩

/-! ## C10: attribute bounds -/

lemma inBounds_of_inBoundsB (c : Character) (h : inBoundsB c = true) : InBounds c := by
  intro p hp v hv
  rw [inBoundsB, List.all_eq_true] at h
  have hb := h p hp
  rw [hv] at hb
  rw [Bool.and_eq_true] at hb
  obtain ⟨h1, h2⟩ := hb
  refine ⟨of_decide_eq_true h1, ?_⟩
  intro M hM
  simp only [hM] at h2
  exact of_decide_eq_true h2

lemma defs_wf : ∀ p ∈ attributeDefinitions, ∀ M, p.2.maxValue = some M →
    p.2.minValue ≤ M := by
  intro p hp M hM
  have hb : (attributeDefinitions.all fun q =>
      match q.2.maxValue with
      | some M => decide (q.2.minValue ≤ M)
      | none => true) = true := by decide
  rw [List.all_eq_true] at hb
  have hq := hb p hp
  simp only [hM] at hq
  exact of_decide_eq_true hq

lemma defs_keys_nodup : (attributeDefinitions.map Prod.fst).Nodup := by decide

lemma aGet_of_mem_nodup {α : Type} :
    ∀ l : List (String × α), (l.map Prod.fst).Nodup →
      ∀ (k : String) (v : α), (k, v) ∈ l → aGet l k = some v := by
  intro l
  induction l with
  | nil => intro _ k v h; exact absurd h (List.not_mem_nil (k, v))
  | cons p t ih =>
    intro hnd k v h
    obtain ⟨a, b⟩ := p
    rw [List.map_cons, List.nodup_cons] at hnd
    rcases List.mem_cons.mp h with h | h
    · injection h with h1 h2
      subst h1
      subst h2
      rw [aGet_cons, if_pos rfl]
    · have hak : a ≠ k := by
        intro hak
        subst hak
        exact hnd.1 (List.mem_map.mpr ⟨(a, v), h, rfl⟩)
      rw [aGet_cons, if_neg hak]
      exact ih hnd.2 k v h

lemma clampTo_bounds (d : AttrDef) (v : Int)
    (hwf : ∀ M, d.maxValue = some M → d.minValue ≤ M) :
    d.minValue ≤ clampTo d v ∧ ∀ M, d.maxValue = some M → clampTo d v ≤ M := by
  simp only [clampTo]
  cases hM : d.maxValue with
  | none =>
    dsimp only
    refine ⟨by split <;> omega, ?_⟩
    intro M h
    exact absurd h (by simp)
  | some M =>
    dsimp only
    have hmin := hwf M hM
    refine ⟨?_, ?_⟩
    · repeat' split
      all_goals omega
    · intro M' hM'
      have hMM : M' = M := by injection hM' with h'; rw [h']
      subst hMM
      repeat' split
      all_goals omega

lemma aGet_defs_wf (k : String) (d : AttrDef)
    (hd : aGet attributeDefinitions k = some d) :
    ∀ M, d.maxValue = some M → d.minValue ≤ M := by
  intro M hM
  obtain ⟨a, ha, ha2⟩ := Option.map_eq_some'.mp hd
  have hfs := List.find?_some ha
  simp only [decide_eq_true_eq] at hfs
  have hak : a = (k, d) := by
    obtain ⟨a1, a2⟩ := a
    simp only at hfs ha2
    rw [hfs, ha2]
  exact defs_wf (k, d) (hak ▸ List.mem_of_find?_eq_some ha) M hM

lemma inBounds_setAttribute (c : Character) (k : String) (v : Int)
    (h : InBounds c) : InBounds (setAttribute c k v) := by
  rw [setAttribute]
  cases hd : aGet attributeDefinitions k with
  | none => exact h
  | some d =>
    intro p hp v' hv'
    simp only at hv'
    by_cases hk : p.1 = k
    · have hp2 : aGet attributeDefinitions k = some p.2 := by
        rw [← hk]
        exact aGet_of_mem_nodup _ defs_keys_nodup p.1 p.2 hp
      have hdp : d = p.2 := by
        rw [hd] at hp2
        injection hp2
      rw [hk, aGet_aSet_self] at hv'
      have hv'' : v' = clampTo d v := by injection hv' with h'; exact h'.symm
      subst hv''
      rw [← hdp]
      exact clampTo_bounds d v (aGet_defs_wf k d hd)
    · rw [aGet_aSet_ne _ _ _ _ hk] at hv'
      exact h p hp v' hv'

lemma inBounds_applyAttrOp (c : Character) (key : String) (op : OpType) (v : PyVal)
    (h : InBounds c) : InBounds (applyAttrOp c key op v) := by
  cases v with
  | pInt n =>
    cases op with
    | opSet => exact inBounds_setAttribute c key _ h
    | opAdd => exact inBounds_setAttribute c key _ h
    | opSubtract => exact inBounds_setAttribute c key _ h
    | opMultiply => exact h
    | opAppend => exact h
    | opRemove => exact h
  | pBool b => exact h
  | pStr a => exact h
  | pStrList l => exact h
  | pDict a b => exact h

lemma inBounds_applyOperationPlayer (m : PlayerMgr) (rq : StateOperationRequest)
    (h : InBounds m.character) : InBounds (applyOperationPlayer m rq).character := by
  simp only [applyOperationPlayer]
  repeat' split
  all_goals
    first
    | exact inBounds_applyAttrOp _ _ _ _ h
    | exact h

/-- C10: writes through the player manager go through set_attribute,
which clamps into the attribute definition's [min_value, max_value]
range.  Part 1: any set_attribute on a defined key stores exactly the
clamped value, and that value respects the declared bounds.  Part 2: any
sequence of apply_operation requests preserves the all-attributes-within-
bounds invariant.  Part 3: an hp SUBTRACT of at least the current hp
leaves current_hp stored at exactly 0 — the attribute's declared minimum,
never negative. -/
theorem c10_attribute_bounds :
    (∀ (c : Character) (k : String) (d : AttrDef) (v : Int),
      aGet attributeDefinitions k = some d →
      aGet (setAttribute c k v).values k = some (clampTo d v) ∧
      d.minValue ≤ clampTo d v ∧ (∀ M, d.maxValue = some M → clampTo d v ≤ M)) ∧
    (∀ (m : PlayerMgr) (rqs : List StateOperationRequest),
      InBounds m.character →
      InBounds ((rqs.foldl applyOperationPlayer m).character)) ∧
    (∀ (m : PlayerMgr) (v : Int) (reason' : String),
      getAttribute m.character "current_hp" ≤ v →
      aGet (applyOperationPlayer m
          { target := "player", propertyPath := "hp", operation := .opSubtract,
            value := .pInt v, reason := reason' }).character.values "current_hp" =
        some 0) := by
  refine ⟨?_, ?_, ?_⟩
  · intro c k d v hd
    refine ⟨?_, ?_⟩
    · rw [setAttribute, hd]
      exact aGet_aSet_self _ _ _
    · exact clampTo_bounds d v (aGet_defs_wf k d hd)
  · intro m rqs
    induction rqs generalizing m with
    | nil => intro h; exact h
    | cons rq t ih =>
      intro h
      rw [List.foldl_cons]
      exact ih (applyOperationPlayer m rq) (inBounds_applyOperationPlayer m rq h)
  · intro m v reason' hle
    have hbase : basePropertyOf "hp" = "hp" := rfl
    simp only [applyOperationPlayer, applyAttrOp, modifyAttribute, setAttribute]
    rw [if_pos (Or.inl hbase)]
    simp only
    have hdef : aGet attributeDefinitions "current_hp" =
        some ⟨.resource, 0, 0, none, false⟩ := rfl
    rw [hdef]
    simp only
    have hclamp : clampTo ⟨.resource, 0, 0, none, false⟩
        (getAttribute m.character "current_hp" + -v) = 0 := by
      simp only [clampTo]
      split <;> omega
    rw [hclamp]
    exact aGet_aSet_self _ _ _

/-- C10 witness: the manager with current_hp 10 / current_mp 5 is within
bounds; one oversubtracting hp request leaves current_hp stored at 0; and
a direct set_attribute of 500 stamina stores the clamp 100. -/
theorem c10_witness :
    (aGet (setAttribute mgr5.character "stamina" 500).values "stamina" =
      some (clampTo ⟨.resource, 100, 0, some 100, false⟩ 500) ∧
      (0 : Int) ≤ clampTo ⟨.resource, 100, 0, some 100, false⟩ 500 ∧
      (∀ M, (some 100 : Option Int) = some M →
        clampTo ⟨.resource, 100, 0, some 100, false⟩ 500 ≤ M)) ∧
    InBounds (([mpReq10].foldl applyOperationPlayer mgr5).character) ∧
    aGet (applyOperationPlayer mgr5
        { target := "player", propertyPath := "hp", operation := .opSubtract,
          value := .pInt 50, reason := "测试" }).character.values "current_hp" =
      some 0 :=
  ⟨c10_attribute_bounds.1 mgr5.character "stamina" ⟨.resource, 100, 0, some 100, false⟩ 500 rfl,
   c10_attribute_bounds.2.1 mgr5 [mpReq10] (inBounds_of_inBoundsB mgr5.character (by decide)),
   c10_attribute_bounds.2.2 mgr5 50 "测试" (by decide)⟩

end Trpg

